/- Verification of the ESP-EnphaseLimiter controller (src/main/powerManager.c and
   src/main/main.c), as a shallow embedding in Lean 4.

   Modelling conventions:
   * C `float`/`double` arithmetic is modelled over `ℚ` (exact rationals); where the
     source can produce IEEE special values (division by zero in
     `CalculateRelaySettings`), an explicit value type `FV` with `fin`/`±inf`/`NaN`
     is used so that the guard `solarMaxPossibleNow == 0` behaves as in IEEE 754.
   * cJSON inputs are modelled structurally: a parsed message is a record of
     optional JSON values; `none` at the top level models a `cJSON_Parse` failure.
     `powerValues = none` models the tag being absent or not an array (both take
     the same error branch in the source).
   * `uint8_t` casts are modelled as reduction modulo 256. -/
import Mathlib

namespace EnphaseLimiter

/-- The `powerManager_T` struct of powerManager.h, fields in source order. -/
structure PM where
  importPrice : ℚ
  exportPrice : ℚ
  batteryLevel : ℚ
  gridPowerkW : ℚ
  housePowerkW : ℚ
  solarPowerkW : ℚ
  batteryPowerkW : ℚ
deriving DecidableEq, Repr

/-- A cJSON value as far as the decoder inspects it: a number, a string, or
anything else (object, array, bool, null). -/
inductive JVal where
  | num (q : ℚ)
  | str (s : String)
  | other
deriving DecidableEq, Repr

/-- One element of the `powerValues` array: the `name`, `units` and `value`
members, each possibly absent (`cJSON_GetObjectItem` returning NULL). -/
structure JItem where
  name : Option JVal
  units : Option JVal
  value : Option JVal
deriving DecidableEq, Repr

/-- A parsed top-level JSON message as the decoder inspects it.
`powerValues = none` models the member being absent or not an array. -/
structure JMsg where
  importPrice : Option JVal
  exportPrice : Option JVal
  batteryLevel : Option JVal
  powerValues : Option (List JItem)
deriving DecidableEq, Repr

/-- Table `relayPower` of powerManager.c line 30: declared `float[16]` with only
15 initializers, so element 15 is zero-initialized per C aggregate semantics. -/
def relayPower : List ℚ :=
  [1, mkRat 94 100, mkRat 88 100, mkRat 82 100, mkRat 76 100, mkRat 64 100,
   mkRat 58 100, mkRat 52 100, mkRat 46 100, mkRat 40 100, mkRat 34 100,
   mkRat 28 100, mkRat 22 100, mkRat 16 100, mkRat 10 100, 0]

/-- Constant `maxSolarPowerkW` of powerManager.c. -/
def maxSolarPowerkW : ℚ := mkRat 82 10

/-- Constant `maxBatteryChargekW` of powerManager.c. -/
def maxBatteryChargekW : ℚ := 5

/-- `PowerManager_Initialise` of powerManager.c lines 37-45.  The source assigns
`importPrice`, `exportPrice`, `gridPowerkW`, `housePowerkW`, `solarPowerkW` and
`batteryPowerkW`; it does not assign `batteryLevel`, which therefore keeps its
prior value. -/
def PowerManager_Initialise (inst : PM) : PM :=
  { inst with importPrice := 0, exportPrice := 0, gridPowerkW := 0,
              housePowerkW := 0, solarPowerkW := 0, batteryPowerkW := 0 }

/-- The `powerValues` array loop of `PowerManager_Decode` (lines 85-110).
State threaded exactly as in the source: the instance being mutated, the
`status` flag, and the C variable `val`, which persists across iterations
(a non-numeric `value` member leaves it at its previous contents, and the
`val /= 1000.0` conversion mutates it in place).  A missing `name`/`units`/
`value` member breaks out of the loop with status 1; a non-string `name` or
`units`, or an unrecognised name, sets status 1 without breaking, after which
no further assignment is made. -/
def decodeItems : PM → ℕ → ℚ → List JItem → PM × ℕ
  | inst, st, _, [] => (inst, st)
  | inst, st, val, it :: rest =>
    match it.name, it.units, it.value with
    | some n, some u, some v =>
      let st1 := match n with | JVal.str _ => st | _ => 1
      let st2 := match u with | JVal.str _ => st1 | _ => 1
      let val1 := match v with | JVal.num q => q | _ => val
      if st2 = 0 then
        let nm := match n with | JVal.str s => s | _ => ""
        let un := match u with | JVal.str s => s | _ => ""
        let val2 := if un ≠ "kW" then val1 / 1000 else val1
        if nm = "House" then decodeItems { inst with housePowerkW := val2 } 0 val2 rest
        else if nm = "Solar" then decodeItems { inst with solarPowerkW := val2 } 0 val2 rest
        else if nm = "Battery" then decodeItems { inst with batteryPowerkW := val2 } 0 val2 rest
        else if nm = "Grid" then decodeItems { inst with gridPowerkW := val2 } 0 val2 rest
        else decodeItems inst 1 val2 rest
      else decodeItems inst st2 val1 rest
    | _, _, _ => (inst, 1)

/-- `PowerManager_Decode` of powerManager.c lines 56-126.  Input `none` models a
`cJSON_Parse` failure (return 1 before any field is touched).  The top-level
`importPrice`, `exportPrice` and `batteryLevel` members are each assigned when
present and numeric; then the `powerValues` array is processed (absent or
non-array: status 1). Returns the mutated instance and the status. -/
def PowerManager_Decode (inst : PM) (j : Option JMsg) : PM × ℕ :=
  match j with
  | none => (inst, 1)
  | some m =>
    let i1 := match m.importPrice with
      | some (JVal.num q) => { inst with importPrice := q }
      | _ => inst
    let i2 := match m.exportPrice with
      | some (JVal.num q) => { i1 with exportPrice := q }
      | _ => i1
    let i3 := match m.batteryLevel with
      | some (JVal.num q) => { i2 with batteryLevel := q }
      | _ => i2
    match m.powerValues with
    | none => (i3, 1)
    | some items => decodeItems i3 0 0 items

/-- An IEEE-754-like value for the two float divisions in
`CalculateRelaySettings`: a finite value (kept exact as a rational), positive
or negative infinity, or NaN.  Only division can produce a non-finite value
here, because the snapshot fields and the table are finite. -/
inductive FV where
  | fin (q : ℚ)
  | pinf
  | ninf
  | nan
deriving DecidableEq, Repr

/-- IEEE-754 division on `FV` (finite quotients kept exact): a nonzero finite
value divided by zero gives a signed infinity, 0/0 gives NaN, a finite value
divided by an infinity gives 0, and NaN propagates. -/
def fdiv : FV → FV → FV
  | FV.fin a, FV.fin b =>
      if b = 0 then (if 0 < a then FV.pinf else if a < 0 then FV.ninf else FV.nan)
      else FV.fin (a / b)
  | FV.fin _, FV.pinf => FV.fin 0
  | FV.fin _, FV.ninf => FV.fin 0
  | FV.pinf, FV.fin b => if b < 0 then FV.ninf else FV.pinf
  | FV.ninf, FV.fin b => if b < 0 then FV.pinf else FV.ninf
  | _, _ => FV.nan

/-- IEEE `==` on `FV`: NaN compares unequal to everything, including itself. -/
def feq : FV → FV → Bool
  | FV.fin a, FV.fin b => decide (a = b)
  | FV.pinf, FV.pinf => true
  | FV.ninf, FV.ninf => true
  | _, _ => false

/-- IEEE `>` on `FV`: any comparison involving NaN is false. -/
def fgt : FV → FV → Bool
  | FV.nan, _ => false
  | _, FV.nan => false
  | FV.pinf, FV.pinf => false
  | FV.pinf, _ => true
  | FV.ninf, _ => false
  | FV.fin _, FV.pinf => false
  | FV.fin _, FV.ninf => true
  | FV.fin a, FV.fin b => decide (b < a)

/-- The `loadkW` computation of `CalculateRelaySettings` (powerManager.c lines
148-158): house plus maximum battery charge while the battery is below 100%,
otherwise house alone when the battery is not exporting, otherwise house plus
the (positive) battery power. -/
def loadkW (inst : PM) : ℚ :=
  if inst.batteryLevel < 100 then inst.housePowerkW + maxBatteryChargekW
  else if inst.batteryPowerkW ≤ 0 then inst.housePowerkW
  else inst.housePowerkW + inst.batteryPowerkW

/-- The quotient `instance->solarPowerkW / relayPower[currentRelayValue]` of
line 161, before the zero guard.  Table indices beyond 15 are an out-of-bounds
read in the source (undefined behaviour); the model reads 0 there, but no
proved claim depends on that case. -/
def solarMaxPre (inst : PM) (currentRelayValue : ℕ) : FV :=
  fdiv (FV.fin inst.solarPowerkW) (FV.fin (relayPower.getD currentRelayValue 0))

/-- `solarMaxPossibleNow` after the guard of line 164: if the quotient compares
equal to 0, substitute 0.100. -/
def solarMaxPossibleNow (inst : PM) (currentRelayValue : ℕ) : FV :=
  if feq (solarMaxPre inst currentRelayValue) (FV.fin 0) then FV.fin (mkRat 1 10)
  else solarMaxPre inst currentRelayValue

/-- `desiredSolarProductionPc` of line 165. -/
def desiredSolarProductionPc (inst : PM) (currentRelayValue : ℕ) : FV :=
  fdiv (FV.fin (loadkW inst)) (solarMaxPossibleNow inst currentRelayValue)

/-- The index-selection loop of lines 170-177: scan i = 0..15 and record i
whenever `i > desiredIndex` and `relayPower[i] > desiredSolarProductionPc`. -/
def desiredIndexFor (desired : FV) : ℕ :=
  (List.range 16).foldl
    (fun di i => if di < i ∧ fgt (FV.fin (relayPower.getD i 0)) desired then i else di) 0

/-- `CalculateRelaySettings` of powerManager.c lines 137-185. -/
def CalculateRelaySettings (inst : PM) (currentRelayValue : ℕ) : ℕ :=
  desiredIndexFor (desiredSolarProductionPc inst currentRelayValue)

/-- Digit-accumulation part of C `atoi`: consume leading decimal digits. -/
def atoiDigits : List Char → Int → Int
  | c :: cs, acc => if c.isDigit then atoiDigits cs (acc * 10 + (c.toNat - 48)) else acc
  | [], acc => acc

/-- C `atoi` as used on the MQTT command payload (main.c line 287): skip
leading whitespace, an optional sign, then leading decimal digits; a payload
with no leading digits parses as 0. -/
def atoi (s : String) : Int :=
  match s.toList.dropWhile Char.isWhitespace with
  | '-' :: rest => - atoiDigits rest 0
  | '+' :: rest => atoiDigits rest 0
  | cs => atoiDigits cs 0

/-- The value `(uint8_t)(atoi(s))` of main.c line 287: the parsed integer
reduced modulo 256. -/
def parseCmdVal (s : String) : ℕ := ((atoi s).emod 256).toNat

/-- C `strstr(s, "ON") != NULL`: whether "ON" occurs as a substring. -/
def containsON (s : String) : Bool :=
  s.toList.tails.any (fun t => ("ON".toList).isPrefixOf t)

/-- The controller state of main.c: the relay/command globals (lines 74-80),
the snapshot, the four relay output lines (RELAY0..RELAY3), plus two ghost
fields recording the level most recently driven to the outputs/published and
the number of pushes performed, used to state the output-framing claims. -/
structure CtrlState where
  relayValue : ℕ
  commandedRelayValue : ℕ
  oldRelayValue : ℕ
  manualControl : Bool
  curtailmentEnabled : Bool
  powerValuesUpdated : Bool
  powerValues : PM
  out0 : Bool
  out1 : Bool
  out2 : Bool
  out3 : Bool
  lastPushed : ℕ
  pushCount : ℕ
deriving DecidableEq, Repr

/-- The events the controller reacts to: a numeric relay command, a manual
switch command, a curtailment switch command, a power message (already run
through the JSON parser), and one iteration of the main loop (a tick). -/
inductive Event where
  | numCmd (payload : String)
  | manualCmd (payload : String)
  | curtailCmd (payload : String)
  | powerMsg (j : Option JMsg)
  | tick
deriving DecidableEq, Repr

/-- Phase one of a main-loop iteration (main.c lines 489-496): the relay value
after the curtailment/manual branch — forced to 0 when neither curtailing nor
manual, recalculated when fresh power values arrived and not manual, otherwise
unchanged. -/
def tickRelayValue (st : CtrlState) : ℕ :=
  if st.curtailmentEnabled = false ∧ st.manualControl = false then 0
  else if st.powerValuesUpdated = true ∧ st.manualControl = false then
    CalculateRelaySettings st.powerValues st.relayValue
  else st.relayValue

/-- The `powerValuesUpdated` flag after phase one of a main-loop iteration:
cleared exactly when the recalculation branch runs. -/
def tickPowerValuesUpdated (st : CtrlState) : Bool :=
  if st.curtailmentEnabled = false ∧ st.manualControl = false then st.powerValuesUpdated
  else if st.powerValuesUpdated = true ∧ st.manualControl = false then false
  else st.powerValuesUpdated

/-- One controller step.  `numCmd` follows main.c lines 283-294: the parsed
value is latched into `commandedRelayValue` unconditionally, and applied to
`relayValue` (saving the old value into `oldRelayValue`) only in manual mode
and only when it is at most 15.  `manualCmd` follows lines 297-304: switching
ON applies the latched `commandedRelayValue` with no range check.
`curtailCmd` follows lines 305-310.  `powerMsg` follows lines 315-324: the
decoder mutates the snapshot in place; the freshness flag is set only on
status 0.  `tick` follows lines 489-518: after phase one, if the relay value
differs from `oldRelayValue` the level is pushed — `oldRelayValue` is updated
and bit i of the level drives output i — and the level is published (ghost
fields `lastPushed`/`pushCount`). -/
def step (st : CtrlState) : Event → CtrlState
  | Event.numCmd s =>
      let val := parseCmdVal s
      let st1 := { st with commandedRelayValue := val }
      if st1.manualControl = true ∧ val ≤ 15 then
        { st1 with oldRelayValue := st1.relayValue, relayValue := val }
      else st1
  | Event.manualCmd s =>
      if containsON s then
        { st with manualControl := true, relayValue := st.commandedRelayValue }
      else { st with manualControl := false }
  | Event.curtailCmd s =>
      if containsON s then { st with curtailmentEnabled := true }
      else { st with curtailmentEnabled := false }
  | Event.powerMsg j =>
      let r := PowerManager_Decode st.powerValues j
      if r.2 = 0 then { st with powerValues := r.1, powerValuesUpdated := true }
      else { st with powerValues := r.1 }
  | Event.tick =>
      let st1 := { st with relayValue := tickRelayValue st,
                           powerValuesUpdated := tickPowerValuesUpdated st }
      if st1.relayValue ≠ st1.oldRelayValue then
        { st1 with oldRelayValue := st1.relayValue,
                   out0 := st1.relayValue.testBit 0,
                   out1 := st1.relayValue.testBit 1,
                   out2 := st1.relayValue.testBit 2,
                   out3 := st1.relayValue.testBit 3,
                   lastPushed := st1.relayValue,
                   pushCount := st.pushCount + 1 }
      else st1

/-- The state after boot (main.c lines 74-80, 404-410, 413): all globals zero
or false, the four relay outputs driven low, and the snapshot initialised. -/
def initState : CtrlState :=
  { relayValue := 0, commandedRelayValue := 0, oldRelayValue := 0,
    manualControl := false, curtailmentEnabled := false,
    powerValuesUpdated := false,
    powerValues := PowerManager_Initialise ⟨0, 0, 0, 0, 0, 0, 0⟩,
    out0 := false, out1 := false, out2 := false, out3 := false,
    lastPushed := 0, pushCount := 0 }

/-- Run the controller from boot over a sequence of events. -/
def run (evs : List Event) : CtrlState := evs.foldl step initState

/-- An array element on which the decoder's claimed failure list fires: a
missing `name`, `units` or `value` member, or a string name other than the
four recognised ones. -/
def ItemFails (it : JItem) : Prop :=
  it.name = none ∨ it.units = none ∨ it.value = none ∨
  ∃ n, it.name = some (JVal.str n) ∧
    n ≠ "House" ∧ n ≠ "Solar" ∧ n ≠ "Battery" ∧ n ≠ "Grid"

/-- A parsed message on which the decoder's claimed failure list fires: the
`powerValues` array is absent (or not an array), or some element fails. -/
def MsgFails (m : JMsg) : Prop :=
  m.powerValues = none ∨
  ∃ items it, m.powerValues = some items ∧ it ∈ items ∧ ItemFails it

/-- An array element whose three members are present and well-typed and whose
units string is not "kW" (the decoder treats it as watts). -/
def ItemInWatts (it : JItem) : Prop :=
  (∃ n, it.name = some (JVal.str n)) ∧
  (∃ u, it.units = some (JVal.str u) ∧ u ≠ "kW") ∧
  (∃ q, it.value = some (JVal.num q))

/-- Rewrite an array element to carry the same quantity in kW: units "kW" and
the numeric value divided by 1000. -/
def toKWItem (it : JItem) : JItem :=
  { it with units := some (JVal.str "kW"),
            value := match it.value with
              | some (JVal.num q) => some (JVal.num (q / 1000))
              | v => v }

/-- Once the decoder's status flag is 1, the rest of the array loop assigns
nothing and the final status is 1, for any contents of the C variable `val`. -/
theorem decodeItems_status_one (items : List JItem) :
    ∀ (inst : PM) (val : ℚ), decodeItems inst 1 val items = (inst, 1) := by
  induction items with
  | nil => intro inst val; rfl
  | cons it rest ih =>
    intro inst val
    obtain ⟨n, u, v⟩ := it
    cases n with
    | none => rfl
    | some jn =>
      cases u with
      | none => rfl
      | some ju =>
        cases v with
        | none => rfl
        | some jv => cases jn <;> cases ju <;> simp [decodeItems, ih]

/-- If some element of the array satisfies the claimed failure list, the array
loop (entered with status 0, as the decoder does) ends with status 1. -/
theorem decodeItems_fails (items : List JItem) :
    ∀ (inst : PM) (val : ℚ), (∃ it ∈ items, ItemFails it) →
      (decodeItems inst 0 val items).2 = 1 := by
  induction items with
  | nil => intro inst val h; rcases h with ⟨it, hit, _⟩; cases hit
  | cons hd rest ih =>
    intro inst val h
    rcases h with ⟨it, hit, hf⟩
    obtain ⟨n, u, v⟩ := hd
    rcases List.mem_cons.1 hit with rfl | hmem
    · -- the failing element is the head
      simp only [ItemFails] at hf
      rcases hf with hn | hu | hv | ⟨nm, hn, hH, hS, hB, hG⟩
      · subst hn; rfl
      · subst hu
        cases n with
        | none => rfl
        | some jn => rfl
      · subst hv
        cases n with
        | none => rfl
        | some jn =>
          cases u with
          | none => rfl
          | some ju => rfl
      · subst hn
        cases u with
        | none => rfl
        | some ju =>
          cases v with
          | none => rfl
          | some jv =>
            cases ju with
            | str su => simp [decodeItems, hH, hS, hB, hG, decodeItems_status_one]
            | num q => simp [decodeItems, decodeItems_status_one]
            | other => simp [decodeItems, decodeItems_status_one]
    · -- the failing element is further along
      cases n with
      | none => rfl
      | some jn =>
        cases u with
        | none => rfl
        | some ju =>
          cases v with
          | none => rfl
          | some jv =>
            cases jn with
            | str sn =>
              cases ju with
              | str su =>
                simp only [decodeItems]
                split_ifs <;>
                  first
                    | exact ih _ _ ⟨it, hmem, hf⟩
                    | simp [decodeItems_status_one]
              | num q => simp [decodeItems, decodeItems_status_one]
              | other => simp [decodeItems, decodeItems_status_one]
            | num q => cases ju <;> simp [decodeItems, decodeItems_status_one]
            | other => cases ju <;> simp [decodeItems, decodeItems_status_one]

/-- The array loop gives the same result on a list of watt-denominated
elements as on the same list rewritten to kW with values divided by 1000:
each element assigns `value / 1000` either way, and the C variable `val`
carried across iterations (arbitrary on entry) is overwritten by every
well-formed element before use. -/
theorem decodeItems_unit_conv (items : List JItem)
    (hwf : ∀ it ∈ items, ItemInWatts it) :
    ∀ (inst : PM) (val valt : ℚ),
      decodeItems inst 0 val items = decodeItems inst 0 valt (items.map toKWItem) := by
  induction items with
  | nil => intro inst val valt; rfl
  | cons hd rest ih =>
    intro inst val valt
    obtain ⟨hhd, hrest⟩ : ItemInWatts hd ∧ ∀ it ∈ rest, ItemInWatts it := by
      refine ⟨hwf hd (List.mem_cons_self hd rest), fun it hit => hwf it (List.mem_cons_of_mem hd hit)⟩
    obtain ⟨n, u, v⟩ := hd
    simp only [ItemInWatts] at hhd
    obtain ⟨⟨nm, hn⟩, ⟨un, hu, hukW⟩, ⟨q, hv⟩⟩ := hhd
    subst hn; subst hu; subst hv
    simp only [List.map_cons]
    simp [decodeItems, toKWItem, hukW]
    split_ifs <;> first
      | exact ih hrest _ _ _
      | simp [decodeItems_status_one]

/-- The index-selection loop can only ever record a scanned index, so its
result never exceeds 15, whatever the desired fraction (finite, infinite or
NaN). -/
theorem desiredIndexFor_le (d : FV) : desiredIndexFor d ≤ 15 := by
  have h : ∀ (l : List ℕ) (a : ℕ), a ≤ 15 → (∀ i ∈ l, i ≤ 15) →
      l.foldl (fun di i => if di < i ∧ fgt (FV.fin (relayPower.getD i 0)) d then i else di)
        a ≤ 15 := by
    intro l
    induction l with
    | nil => intro a ha _; simpa using ha
    | cons x xs ih =>
      intro a ha hl
      simp only [List.foldl_cons]
      refine ih _ ?_ (fun i hi => hl i (List.mem_cons_of_mem x hi))
      split_ifs with hc
      · exact hl x (List.mem_cons_self x xs)
      · exact ha
  have h16 := h (List.range 16) 0 (by norm_num)
    (fun i hi => Nat.lt_succ_iff.1 (List.mem_range.1 hi))
  simpa [desiredIndexFor] using h16

/-- C3: the static curtailment table is declared with 16 entries, but the
source supplies only 15 initializers, so entry 15 — reachable, since level 15
is a legal relay value — is 0.0 rather than a strictly positive lowest
deliverable fraction.  The first 15 entries are positive and non-increasing,
with entry 0 equal to 1.0, as claimed. -/
theorem relayPower_sixteenth_entry :
    relayPower.length = 16 ∧ relayPower.getD 0 0 = 1 ∧ relayPower.getD 15 0 = 0 ∧
      ¬ 0 < relayPower.getD 15 0 ∧
      ((List.range 15).all fun i => decide (0 < relayPower.getD i 0)) = true ∧
      ((List.range 15).all fun i =>
        decide (relayPower.getD (i + 1) 0 ≤ relayPower.getD i 0)) = true := by decide

/-- C2: the controller does not keep the applied relay level within 0..15.
Receiving the numeric command "16" while manual control is off latches
`commandedRelayValue = 16`; switching manual control ON then applies it with
no range check, leaving `relayValue = 16` — outside the 16-entry table, so a
subsequent automatic recalculation would index `relayPower[16]` out of
bounds. -/
theorem manual_on_applies_latched_16 :
    (run [Event.numCmd "16", Event.manualCmd "ON"]).relayValue = 16 := by decide

/-- C7: the scan does not walk to index 15 when the desired fraction is
exactly 0 — because the missing 16th table initializer makes
`relayPower[15] = 0.0`, which is not strictly greater than 0 — and instead
returns 14; for a strictly negative desired fraction it does return 15. -/
theorem scan_at_zero_desired :
    desiredIndexFor (FV.fin 0) = 14 ∧ desiredIndexFor (FV.fin (mkRat (-1) 2)) = 15 := by
  decide

/-- C8: `PowerManager_Initialise` zeroes the prices and the four power values
but never assigns `batteryLevel`, which keeps its prior contents (here 42)
instead of the claimed 0.0 default. -/
theorem initialise_keeps_batteryLevel :
    PowerManager_Initialise ⟨1, 2, 42, 3, 4, 5, 6⟩ = (⟨0, 0, 42, 0, 0, 0, 0⟩ : PM) := by
  decide

/-- C6: the required load is house plus the 5.0 kW maximum battery charge while
the battery level is below 100, exactly the house load when the battery is at
or above 100 and not exporting, and house plus battery power when the battery
is at or above 100 and exporting. -/
theorem loadkW_cases (inst : PM) :
    (inst.batteryLevel < 100 → loadkW inst = inst.housePowerkW + 5) ∧
    (100 ≤ inst.batteryLevel → inst.batteryPowerkW ≤ 0 →
      loadkW inst = inst.housePowerkW) ∧
    (100 ≤ inst.batteryLevel → 0 < inst.batteryPowerkW →
      loadkW inst = inst.housePowerkW + inst.batteryPowerkW) := by
  refine ⟨fun h => ?_, fun h hb => ?_, fun h hb => ?_⟩
  · simp [loadkW, maxBatteryChargekW, h]
  · simp [loadkW, maxBatteryChargekW, not_lt.2 h, hb]
  · simp [loadkW, maxBatteryChargekW, not_lt.2 h, not_le.2 hb]

/-- Witness for the load computation: a snapshot with battery level 50 and a
3 kW house load requires 3 + 5 kW. -/
theorem loadkW_cases_witness : loadkW ⟨0, 0, 50, 0, 3, 0, 0⟩ = 3 + 5 :=
  (loadkW_cases ⟨0, 0, 50, 0, 3, 0, 0⟩).1 (by norm_num)

/-- Dividing a zero numerator by a nonzero finite divisor gives finite zero. -/
theorem fdiv_zero_num (d : ℚ) (hd : d ≠ 0) : fdiv (FV.fin 0) (FV.fin d) = FV.fin 0 := by
  simp [fdiv, hd]

/-- C4 counterexample: at `current_level = 15` the table divisor is 0, yet the
guard does not substitute the 0.100 kW floor — with 1 kW of measured solar the
quotient is IEEE +infinity, which compares unequal to 0, so the guard is
skipped. -/
theorem guard_not_taken_for_zero_divisor :
    relayPower.getD 15 0 = 0 ∧
      solarMaxPossibleNow ⟨0, 0, 0, 0, 0, 1, 0⟩ 15 = FV.pinf ∧
      solarMaxPossibleNow ⟨0, 0, 0, 0, 0, 1, 0⟩ 15 ≠ FV.fin (mkRat 1 10) := by
  decide

/-- C4 (amended): the guard substitutes the 0.100 kW floor exactly when the
computed quotient equals 0 — that is, when `solarPowerkW` is 0 and the table
divisor is nonzero; when the divisor is 0 the quotient is infinite or NaN and
no substitution happens — and in every case `CalculateRelaySettings` returns a
level in 0..15, so no division-by-zero singularity escapes. -/
theorem calc_guard_and_range (inst : PM) (currentRelayValue : ℕ) :
    (inst.solarPowerkW = 0 → relayPower.getD currentRelayValue 0 ≠ 0 →
      solarMaxPossibleNow inst currentRelayValue = FV.fin (mkRat 1 10)) ∧
    CalculateRelaySettings inst currentRelayValue ≤ 15 := by
  constructor
  · intro hs hd
    have h0 : solarMaxPre inst currentRelayValue = FV.fin 0 := by
      rw [solarMaxPre, hs]; exact fdiv_zero_num _ hd
    rw [solarMaxPossibleNow, h0]
    decide
  · exact desiredIndexFor_le _

/-- Witness for the guard: with zero measured solar at level 0 the substitution
happens, and the returned level is within range. -/
theorem calc_guard_and_range_witness :
    solarMaxPossibleNow ⟨0, 0, 0, 0, 0, 0, 0⟩ 0 = FV.fin (mkRat 1 10) ∧
      CalculateRelaySettings ⟨0, 0, 0, 0, 0, 0, 0⟩ 0 ≤ 15 :=
  ⟨(calc_guard_and_range ⟨0, 0, 0, 0, 0, 0, 0⟩ 0).1 rfl (by decide),
   (calc_guard_and_range ⟨0, 0, 0, 0, 0, 0, 0⟩ 0).2⟩

/-- C5 counterexample: the numeric command "16" is out of range, yet it is not
dropped without state change — the latched `commandedRelayValue` takes the new
value 16 instead of keeping its prior value. -/
theorem out_of_range_command_latches :
    (step initState (Event.numCmd "16")).commandedRelayValue ≠
      initState.commandedRelayValue := by decide

/-- C5 (amended): a numeric command parsing (via `atoi` and the `uint8_t` cast)
to a value above 15 never modifies `relayValue` or any other controller state,
but `commandedRelayValue` is unconditionally latched to the parsed value; when
manual control is off the same holds for every payload; and in manual mode any
payload parsing to a value at most 15 — including non-numeric payloads, which
`atoi` parses as 0 — is applied to `relayValue`. -/
theorem numeric_command_behaviour (st : CtrlState) (s : String) :
    (15 < parseCmdVal s →
      step st (Event.numCmd s) = { st with commandedRelayValue := parseCmdVal s }) ∧
    (st.manualControl = false →
      step st (Event.numCmd s) = { st with commandedRelayValue := parseCmdVal s }) ∧
    (st.manualControl = true → parseCmdVal s ≤ 15 →
      step st (Event.numCmd s) =
        { st with commandedRelayValue := parseCmdVal s,
                  oldRelayValue := st.relayValue, relayValue := parseCmdVal s }) := by
  refine ⟨fun h => ?_, fun hm => ?_, fun hm hle => ?_⟩
  · simp [step, not_le.2 h]
  · simp [step, hm]
  · simp [step, hm, hle]

/-- Witness: the out-of-range command "16" on the boot state only latches the
commanded value. -/
theorem numeric_command_behaviour_witness :
    step initState (Event.numCmd "16") =
      { initState with commandedRelayValue := parseCmdVal "16" } :=
  (numeric_command_behaviour initState "16").1 (by decide)

/-- C9 counterexample: after pushing level 5, two manual commands (7 then 5)
arrive between ticks; the command handler rewrites `oldRelayValue`, so the
next tick pushes and publishes again even though the current level 5 equals
the previously pushed level 5. -/
theorem redundant_push_trace :
    (run [Event.manualCmd "ON", Event.numCmd "5", Event.tick, Event.numCmd "7",
          Event.numCmd "5"]).relayValue =
      (run [Event.manualCmd "ON", Event.numCmd "5", Event.tick, Event.numCmd "7",
          Event.numCmd "5"]).lastPushed ∧
    (run [Event.manualCmd "ON", Event.numCmd "5", Event.tick, Event.numCmd "7",
          Event.numCmd "5", Event.tick]).pushCount =
      (run [Event.manualCmd "ON", Event.numCmd "5", Event.tick, Event.numCmd "7",
          Event.numCmd "5"]).pushCount + 1 := by decide

/-- C9 (amended): at a tick, the relay outputs are written and the level
published exactly when the computed level differs from `oldRelayValue`; on a
push `oldRelayValue` is set to the level and bit i of the level drives output
i, and otherwise outputs, `oldRelayValue` and the publish count are untouched.
Because `oldRelayValue` is also rewritten by manual numeric commands, it can
differ from the level most recently pushed, so equal consecutive levels are
not always push-free. -/
theorem tick_push_framing (st : CtrlState) :
    (tickRelayValue st ≠ st.oldRelayValue →
      step st Event.tick =
        { st with relayValue := tickRelayValue st,
                  powerValuesUpdated := tickPowerValuesUpdated st,
                  oldRelayValue := tickRelayValue st,
                  out0 := (tickRelayValue st).testBit 0,
                  out1 := (tickRelayValue st).testBit 1,
                  out2 := (tickRelayValue st).testBit 2,
                  out3 := (tickRelayValue st).testBit 3,
                  lastPushed := tickRelayValue st,
                  pushCount := st.pushCount + 1 }) ∧
    (tickRelayValue st = st.oldRelayValue →
      step st Event.tick =
        { st with relayValue := tickRelayValue st,
                  powerValuesUpdated := tickPowerValuesUpdated st }) := by
  constructor
  · intro h; simp [step, h]
  · intro h; simp [step, h]

/-- Witness: from a state whose `oldRelayValue` is stale (1), the tick pushes
level 0 and records the push. -/
theorem tick_push_framing_witness :
    step { initState with oldRelayValue := 1 } Event.tick =
      { initState with pushCount := 1 } := by
  have h := (tick_push_framing { initState with oldRelayValue := 1 }).1 (by decide)
  rw [h]; decide

/-- C1 counterexample: a payload carrying a numeric `batteryLevel` but no
`powerValues` array makes the decoder fail (non-zero status) while having
already overwritten `batteryLevel`, so the previous snapshot is not retained
unchanged. -/
theorem decode_not_atomic :
    (PowerManager_Decode ⟨0, 0, 0, 0, 0, 0, 0⟩
        (some ⟨none, none, some (JVal.num 55), none⟩)).2 ≠ 0 ∧
    (PowerManager_Decode ⟨0, 0, 0, 0, 0, 0, 0⟩
        (some ⟨none, none, some (JVal.num 55), none⟩)).1 ≠
      (⟨0, 0, 0, 0, 0, 0, 0⟩ : PM) := by decide

/-- C1 (amended): the decoder reports every input of the claimed failure list
with a non-zero status — and an unparsable payload leaves the snapshot
untouched — but the decode is not atomic: fields assigned before the failure
point (the top-level prices and battery level, and array elements processed
before the error) keep their new values. -/
theorem decode_failure_behaviour :
    (∀ inst : PM, PowerManager_Decode inst none = (inst, 1)) ∧
    (∀ (inst : PM) (m : JMsg), MsgFails m →
      (PowerManager_Decode inst (some m)).2 = 1) := by
  constructor
  · intro inst; rfl
  · intro inst m hm
    rcases hm with h | ⟨items, it, hpv, hmem, hf⟩
    · simp [PowerManager_Decode, h]
    · simp only [PowerManager_Decode, hpv]
      exact decodeItems_fails items _ 0 ⟨it, hmem, hf⟩

/-- Witness: a payload with a numeric `batteryLevel` and no `powerValues`
array is reported with status 1. -/
theorem decode_failure_behaviour_witness :
    (PowerManager_Decode ⟨0, 0, 0, 0, 0, 0, 0⟩
        (some ⟨none, none, some (JVal.num 55), none⟩)).2 = 1 :=
  decode_failure_behaviour.2 ⟨0, 0, 0, 0, 0, 0, 0⟩
    ⟨none, none, some (JVal.num 55), none⟩ (Or.inl rfl)

/-- C10: decoding a payload whose power values all carry a units string other
than "kW" (watts) gives exactly the snapshot decoded from the same payload
rewritten to units "kW" with each value divided by 1000 — the model computes
over exact rationals, so equality holds with no epsilon. -/
theorem decode_unit_round_trip (inst : PM) (m : JMsg) (items : List JItem)
    (hpv : m.powerValues = some items) (hwf : ∀ it ∈ items, ItemInWatts it) :
    PowerManager_Decode inst (some m) =
      PowerManager_Decode inst
        (some { m with powerValues := some (items.map toKWItem) }) := by
  obtain ⟨ip, ep, bl, pv⟩ := m
  simp only at hpv
  subst hpv
  simp only [PowerManager_Decode]
  exact decodeItems_unit_conv items hwf _ 0 0

/-- Witness: a single House element of 2000 W decodes identically to its kW
rewrite (2 kW). -/
theorem decode_unit_round_trip_witness :
    PowerManager_Decode ⟨0, 0, 0, 0, 0, 0, 0⟩
        (some ⟨none, none, none,
          some [⟨some (JVal.str "House"), some (JVal.str "W"), some (JVal.num 2000)⟩]⟩) =
      PowerManager_Decode ⟨0, 0, 0, 0, 0, 0, 0⟩
        (some ⟨none, none, none,
          some ([⟨some (JVal.str "House"), some (JVal.str "W"),
                  some (JVal.num 2000)⟩].map toKWItem)⟩) :=
  decode_unit_round_trip ⟨0, 0, 0, 0, 0, 0, 0⟩
    ⟨none, none, none,
      some [⟨some (JVal.str "House"), some (JVal.str "W"), some (JVal.num 2000)⟩]⟩
    [⟨some (JVal.str "House"), some (JVal.str "W"), some (JVal.num 2000)⟩] rfl
    (by
      intro it hit
      have h := List.mem_singleton.1 hit
      subst h
      exact ⟨⟨"House", rfl⟩, ⟨"W", rfl, by decide⟩, ⟨2000, rfl⟩⟩)

end EnphaseLimiter
